import Mathlib

/-!
Shallow embedding of the i8259A PIC emulation (src/src/pic.rs).

Machine integers (`u8`) are modelled as `Nat` with explicit `% 256` at the
points where the Rust code performs 8-bit arithmetic (addition, shifts,
bitwise complement).  Each mutating operation returns
`Option (State × List VMCall)`: `none` models a fail-fast `assert!`
violation (a Rust panic), and the list records the calls issued to the
host `vm` module, in order.
-/

/-- Calls the chip makes into the host `vm` module. -/
inductive VMCall where
  | raise_external_interrupt (vec : Nat)
  | cancel_all_external_interrupts
deriving DecidableEq, Repr

/-- ICW1 bit: start initialization (`ICW1_INIT`, 0x10). -/
def ICW1_INIT : Nat := 0x10

/-- ICW1 bit: an ICW4 mode word will follow (`ICW1_ICW4`, 0x01). -/
def ICW1_ICW4 : Nat := 0x01

/-- The single supported ICW4 mode word (`ICW4_8086`, 0x01). -/
def ICW4_8086 : Nat := 0x01

/-- Command byte: latch IRR for the next command-port read. -/
def PIC_READ_IRR : Nat := 0x0A

/-- Command byte: latch ISR for the next command-port read. -/
def PIC_READ_ISR : Nat := 0x0B

/-- Command byte: non-specific end of interrupt. -/
def PIC_EOI : Nat := 0x20

/-- State of one emulated i8259A chip (struct `I8259A` in pic.rs). -/
structure I8259A where
  irr : Nat
  isr : Nat
  imr : Nat
  offset : Nat
  icw3 : Nat
  next_icw : Nat
  cmd_latch : Nat
deriving DecidableEq, Repr

namespace I8259A

/-- `I8259A::default`: all fields zero. -/
def default : I8259A :=
  { irr := 0, isr := 0, imr := 0, offset := 0, icw3 := 0, next_icw := 0, cmd_latch := 0 }

/-- `I8259A::is_initialized`: true iff `next_icw == 1`. -/
def is_initialized (s : I8259A) : Bool :=
  s.next_icw == 1

/-- `I8259A::slave_irq`: the stored ICW3 cascade value. -/
def slave_irq (s : I8259A) : Nat :=
  s.icw3

/-- `I8259A::assert_irq`.  `assert!(irq < 8)` fails fast; a chip that is not
initialized or a masked line is a silent no-op; otherwise the IRR bit is set
and one injection request for `irq + offset` (u8 addition) is issued. -/
def assert_irq (s : I8259A) (irq : Nat) : Option (I8259A × List VMCall) :=
  if irq < 8 then
    if !s.is_initialized then
      some (s, [])
    else
      if s.imr &&& ((1 <<< irq) % 256) != 0 then
        some (s, [])
      else
        some ({ s with irr := s.irr ||| ((1 <<< irq) % 256) },
              [VMCall.raise_external_interrupt ((irq + s.offset) % 256)])
  else
    none

/-- `I8259A::ack`.  Fails fast unless `vec >= offset` and the corresponding
IRR bit is set; otherwise moves the bit from IRR to ISR. -/
def ack (s : I8259A) (vec : Nat) : Option (I8259A × List VMCall) :=
  if s.offset ≤ vec then
    if s.irr &&& ((1 <<< (vec - s.offset)) % 256) != 0 then
      some ({ s with isr := s.isr ||| ((1 <<< (vec - s.offset)) % 256),
                     irr := s.irr &&& (255 ^^^ ((1 <<< (vec - s.offset)) % 256)) }, [])
    else
      none
  else
    none

/-- The bit-scan-forward loop inside the EOI branch of `write_command`:
`pos` counts how often the value must be shifted right before bit 0 is set.
The Rust loop runs while the low bit is zero; eight steps of fuel cover every
nonzero `u8`. -/
def bsfAux : Nat → Nat → Nat
  | 0, _ => 0
  | fuel + 1, n => if n &&& 1 == 0 then bsfAux fuel (n >>> 1) + 1 else 0

/-- Index of the lowest set bit (for nonzero 8-bit values). -/
def bsf (n : Nat) : Nat := bsfAux 8 n

/-- `I8259A::write_command`. -/
def write_command (s : I8259A) (cmd : Nat) : Option (I8259A × List VMCall) :=
  if cmd &&& ICW1_INIT != 0 then
    if cmd &&& (255 ^^^ (ICW1_INIT ||| ICW1_ICW4)) == 0 then
      some ({ s with next_icw := 2, imr := 0 },
            if s.irr != 0 then [VMCall.cancel_all_external_interrupts] else [])
    else
      none
  else if cmd == PIC_READ_IRR then
    some ({ s with cmd_latch := s.irr }, [])
  else if cmd == PIC_READ_ISR then
    some ({ s with cmd_latch := s.isr }, [])
  else if cmd == PIC_EOI then
    if s.isr != 0 then
      let pos := bsf s.isr
      some ({ s with isr := s.isr &&& (255 ^^^ ((1 <<< pos) % 256)) }, [])
    else
      some (s, [])
  else
    some (s, [])

/-- `I8259A::read_command`: returns the latched status. -/
def read_command (s : I8259A) : Nat := s.cmd_latch

/-- `I8259A::read_data`: returns the mask register. -/
def read_data (s : I8259A) : Nat := s.imr

/-- `I8259A::write_data`: dispatch on `next_icw`. -/
def write_data (s : I8259A) (data : Nat) : Option (I8259A × List VMCall) :=
  match s.next_icw with
  | 2 => some ({ s with offset := data, next_icw := 3 }, [])
  | 3 => some ({ s with icw3 := data, next_icw := 4 }, [])
  | 4 =>
    if data == ICW4_8086 then
      some ({ s with next_icw := 1 },
            (List.range 8).filterMap (fun i =>
              if s.irr &&& ((1 <<< i) % 256) != 0 then
                some (VMCall.raise_external_interrupt ((i + s.offset) % 256))
              else
                none))
    else
      none
  | _ => some ({ s with imr := data }, [])

end I8259A

/-- The cascaded master/slave pair (struct `PIC` in pic.rs). -/
structure PIC where
  master : I8259A
  slave : I8259A
deriving DecidableEq, Repr

namespace PIC

/-- `PIC::new`: both chips at their default state. -/
def new : PIC :=
  { master := I8259A.default, slave := I8259A.default }

/-- `PIC::assert_irq`: route a 0..=15 line to master, or to master (via the
cascade line) plus slave. -/
def assert_irq (p : PIC) (irq : Nat) : Option (PIC × List VMCall) :=
  if irq ≤ 15 then
    if irq < 8 then
      (p.master.assert_irq irq).map (fun r => ({ p with master := r.1 }, r.2))
    else
      match p.master.assert_irq p.master.slave_irq with
      | none => none
      | some (m, evs1) =>
        match p.slave.assert_irq (irq - 8) with
        | none => none
        | some (sl, evs2) => some ({ master := m, slave := sl }, evs1 ++ evs2)
  else
    none

/-- `PIC::ack`: vectors at or above the slave's offset go to the slave,
the rest to the master. -/
def ack (p : PIC) (vec : Nat) : Option (PIC × List VMCall) :=
  if p.slave.offset ≤ vec then
    (p.slave.ack vec).map (fun r => ({ p with slave := r.1 }, r.2))
  else
    (p.master.ack vec).map (fun r => ({ p with master := r.1 }, r.2))

end PIC

/-- `a` is a sub-bitset of `b`: every bit set in `a` is also set in `b`. -/
def bitsSubset (a b : Nat) : Prop :=
  ∀ i, a.testBit i = true → b.testBit i = true

/-- A fully initialized chip with offset 32, cascade line 2 and empty mask. -/
def readyChip : I8259A :=
  { irr := 0, isr := 0, imr := 0, offset := 32, icw3 := 2, next_icw := 1, cmd_latch := 0 }

/-- An initialized chip with IRQ 3 pending in IRR (offset 32). -/
def ackChip : I8259A :=
  { irr := 8, isr := 0, imr := 0, offset := 32, icw3 := 2, next_icw := 1, cmd_latch := 0 }

/-- An initialized chip with ISR bits 1 and 3 in service. -/
def eoiChip : I8259A :=
  { irr := 0, isr := 10, imr := 0, offset := 8, icw3 := 2, next_icw := 1, cmd_latch := 0 }

/-- `eoiChip` after one non-specific EOI: lowest set ISR bit (bit 1) cleared. -/
def eoiAfter : I8259A :=
  { irr := 0, isr := 8, imr := 0, offset := 8, icw3 := 2, next_icw := 1, cmd_latch := 0 }

/-- A cascade whose chips are both initialized; master cascade line 2,
master offset 32, slave offset 40. -/
def readyCascade : PIC :=
  { master := readyChip,
    slave := { irr := 0, isr := 0, imr := 0, offset := 40, icw3 := 0, next_icw := 1,
               cmd_latch := 0 } }

lemma one_shiftLeft_mod_256 (i : Nat) (hi : i < 8) : (1 <<< i) % 256 = 1 <<< i := by
  apply Nat.mod_eq_of_lt
  rw [Nat.one_shiftLeft]
  have h : 2 ^ i ≤ 2 ^ 7 := Nat.pow_le_pow_right (by omega) (by omega)
  omega

lemma one_shiftLeft_mod_256_of_ge (i : Nat) (hi : 8 ≤ i) : (1 <<< i) % 256 = 0 := by
  rw [Nat.one_shiftLeft]
  obtain ⟨k, hk⟩ := Nat.pow_dvd_pow 2 hi
  rw [hk]
  show 2 ^ 8 * k % 256 = 0
  rw [show (2 : Nat) ^ 8 = 256 by norm_num, Nat.mul_mod_right]

lemma and_mask_testBit_lt (n i : Nat) (hi : i < 8) :
    (n &&& ((1 <<< i) % 256) != 0) = n.testBit i := by
  rw [one_shiftLeft_mod_256 i hi, Nat.one_shiftLeft, Nat.and_two_pow]
  cases hb : n.testBit i <;> simp [hb]

lemma and_mask_testBit (n i : Nat) (hn : n < 256) :
    (n &&& ((1 <<< i) % 256) != 0) = n.testBit i := by
  by_cases hi : i < 8
  · exact and_mask_testBit_lt n i hi
  · rw [one_shiftLeft_mod_256_of_ge i (by omega), Nat.and_zero]
    have : n < 2 ^ i :=
      lt_of_lt_of_le hn (by simpa using Nat.pow_le_pow_right (n := 2) (by omega) (by omega : 8 ≤ i))
    simp [Nat.testBit_eq_false_of_lt this]

lemma testBit_lt_of_lt_256 (n i : Nat) (hn : n < 256) (hi : n.testBit i = true) : i < 8 := by
  by_contra h
  have : n < 2 ^ i :=
    lt_of_lt_of_le hn (by simpa using Nat.pow_le_pow_right (n := 2) (by omega) (by omega : 8 ≤ i))
  rw [Nat.testBit_eq_false_of_lt this] at hi
  exact Bool.false_ne_true hi

/-- Claim C1: on an initialized chip with `line < 8` unmasked, `assert_irq`
sets IRR bit `line` and issues exactly one injection request for
`offset + line` (u8 addition), regardless of whether the bit was already set;
on an uninitialized chip, or when the line is masked, it changes nothing and
issues nothing. -/
theorem assert_irq_spec (s : I8259A) (line : Nat) (hline : line < 8) :
    (s.is_initialized = true → s.imr &&& (1 <<< line) = 0 →
      s.assert_irq line =
        some ({ s with irr := s.irr ||| (1 <<< line) },
              [VMCall.raise_external_interrupt ((line + s.offset) % 256)]) ∧
      (s.irr ||| (1 <<< line)).testBit line = true) ∧
    (s.is_initialized = false → s.assert_irq line = some (s, [])) ∧
    (s.imr &&& (1 <<< line) ≠ 0 → s.assert_irq line = some (s, [])) := by
  have hm := one_shiftLeft_mod_256 line hline
  refine ⟨?_, ?_, ?_⟩
  · intro hinit hmask
    constructor
    · unfold I8259A.assert_irq
      rw [if_pos hline]
      simp [hinit, hm, hmask]
    · rw [Nat.testBit_or, Nat.one_shiftLeft, Nat.testBit_two_pow_self, Bool.or_true]
  · intro hinit
    unfold I8259A.assert_irq
    rw [if_pos hline]
    simp [hinit]
  · intro hmask
    unfold I8259A.assert_irq
    rw [if_pos hline]
    cases hinit : s.is_initialized <;> simp [hinit, hm, hmask]

/-- Witness for C1 at `readyChip` and line 3. -/
theorem assert_irq_spec_witness :
    (3 < 8) ∧
    ((readyChip.is_initialized = true → readyChip.imr &&& (1 <<< 3) = 0 →
      readyChip.assert_irq 3 =
        some ({ readyChip with irr := readyChip.irr ||| (1 <<< 3) },
              [VMCall.raise_external_interrupt ((3 + readyChip.offset) % 256)]) ∧
      (readyChip.irr ||| (1 <<< 3)).testBit 3 = true) ∧
    (readyChip.is_initialized = false → readyChip.assert_irq 3 = some (readyChip, [])) ∧
    (readyChip.imr &&& (1 <<< 3) ≠ 0 → readyChip.assert_irq 3 = some (readyChip, []))) :=
  ⟨by decide, assert_irq_spec readyChip 3 (by decide)⟩

/-- Claim C2: with `vec ≥ offset` and IRR bit `vec - offset` set, `ack`
moves that bit from IRR to ISR and changes nothing else; a vector below
`offset`, or one whose IRR bit is clear, fails fast (`none`), never a
silent no-op. -/
theorem ack_spec (s : I8259A) (vec : Nat) (hirr : s.irr < 256) :
    (s.offset ≤ vec → s.irr.testBit (vec - s.offset) = true →
      s.ack vec = some ({ s with
        isr := s.isr ||| (1 <<< (vec - s.offset)),
        irr := s.irr &&& (255 ^^^ (1 <<< (vec - s.offset))) }, [])) ∧
    (vec < s.offset → s.ack vec = none) ∧
    (s.irr.testBit (vec - s.offset) = false → s.ack vec = none) := by
  refine ⟨?_, ?_, ?_⟩
  · intro hof hbit
    have hlt : vec - s.offset < 8 := testBit_lt_of_lt_256 s.irr _ hirr hbit
    have hm := one_shiftLeft_mod_256 _ hlt
    unfold I8259A.ack
    rw [if_pos hof]
    simp only [hm]
    have hc : (s.irr &&& 1 <<< (vec - s.offset) != 0) = true := by
      rw [show s.irr &&& 1 <<< (vec - s.offset) = s.irr &&& ((1 <<< (vec - s.offset)) % 256) by
            rw [hm],
          and_mask_testBit s.irr _ hirr]
      exact hbit
    rw [if_pos hc]
  · intro hof
    unfold I8259A.ack
    rw [if_neg (by omega)]
  · intro hbit
    unfold I8259A.ack
    by_cases hof : s.offset ≤ vec
    · rw [if_pos hof]
      simp [and_mask_testBit s.irr _ hirr, hbit]
    · rw [if_neg hof]

/-- Witness for C2 at `ackChip` (IRR bit 3 pending, offset 32) and vector 35. -/
theorem ack_spec_witness :
    (ackChip.irr < 256) ∧
    ((ackChip.offset ≤ 35 → ackChip.irr.testBit (35 - ackChip.offset) = true →
      ackChip.ack 35 = some ({ ackChip with
        isr := ackChip.isr ||| (1 <<< (35 - ackChip.offset)),
        irr := ackChip.irr &&& (255 ^^^ (1 <<< (35 - ackChip.offset))) }, [])) ∧
    (35 < ackChip.offset → ackChip.ack 35 = none) ∧
    (ackChip.irr.testBit (35 - ackChip.offset) = false → ackChip.ack 35 = none)) :=
  ⟨by decide, ack_spec ackChip 35 (by decide)⟩

lemma filterMap_if_eq_map_filter {α β : Type} (l : List α) (p : α → Bool) (f : α → β) :
    l.filterMap (fun i => if p i then some (f i) else none) = (l.filter p).map f := by
  induction l with
  | nil => rfl
  | cons a t ih => by_cases h : p a <;> simp [h, ih]

/-- Claim C3: `write_data` dispatches on the initialization stage.  Stage 2
(awaiting offset) stores the offset and advances; stage 3 (awaiting cascade
word) stores the cascade word and advances; stage 4 (awaiting mode) fails
fast unless the value is `ICW4_8086`, and on success becomes initialized and
issues one injection request `offset + i` (u8 addition) for every bit `i`
still set in IRR, using the newly programmed offset; stages 0
(not initialized) and 1 (ready) write the value to IMR.  `is_initialized` is
false at every intermediate stage and true only after the mode byte. -/
theorem write_data_spec (s : I8259A) (v : Nat) :
    (s.next_icw = 2 →
      s.write_data v = some ({ s with offset := v, next_icw := 3 }, []) ∧
      ({ s with offset := v, next_icw := 3 } : I8259A).is_initialized = false) ∧
    (s.next_icw = 3 →
      s.write_data v = some ({ s with icw3 := v, next_icw := 4 }, []) ∧
      ({ s with icw3 := v, next_icw := 4 } : I8259A).is_initialized = false) ∧
    (s.next_icw = 4 → v ≠ ICW4_8086 → s.write_data v = none) ∧
    (s.next_icw = 4 → v = ICW4_8086 →
      s.write_data v = some ({ s with next_icw := 1 },
        ((List.range 8).filter (fun i => s.irr.testBit i)).map
          (fun i => VMCall.raise_external_interrupt ((i + s.offset) % 256))) ∧
      ({ s with next_icw := 1 } : I8259A).is_initialized = true) ∧
    ((s.next_icw = 0 ∨ s.next_icw = 1) →
      s.write_data v = some ({ s with imr := v }, []) ∧
      ({ s with imr := v } : I8259A).irr = s.irr) := by
  refine ⟨?_, ?_, ?_, ?_, ?_⟩
  · intro h2
    exact ⟨by unfold I8259A.write_data; rw [h2], by simp [I8259A.is_initialized]⟩
  · intro h3
    exact ⟨by unfold I8259A.write_data; rw [h3], by simp [I8259A.is_initialized]⟩
  · intro h4 hv
    unfold I8259A.write_data
    rw [h4]
    simp [hv]
  · intro h4 hv
    refine ⟨?_, by simp [I8259A.is_initialized]⟩
    unfold I8259A.write_data
    rw [h4]
    simp only [hv, beq_self_eq_true, if_pos]
    have hcong : (List.range 8).filterMap (fun i =>
        if s.irr &&& ((1 <<< i) % 256) != 0 then
          some (VMCall.raise_external_interrupt ((i + s.offset) % 256))
        else none) =
        (List.range 8).filterMap (fun i =>
        if s.irr.testBit i then
          some (VMCall.raise_external_interrupt ((i + s.offset) % 256))
        else none) := by
      apply List.filterMap_congr
      intro i hi
      rw [List.mem_range] at hi
      rw [and_mask_testBit_lt s.irr i hi]
    rw [hcong, filterMap_if_eq_map_filter]
  · intro h01
    refine ⟨?_, by simp⟩
    unfold I8259A.write_data
    rcases h01 with h | h <;> rw [h]

/-- A chip in stage 4 (awaiting the mode word) with IRR bit 1 pending and
offset 64. -/
def modeChip : I8259A :=
  { irr := 2, isr := 0, imr := 0, offset := 64, icw3 := 2, next_icw := 4, cmd_latch := 0 }

/-- Witness for C3 at `modeChip` and the mode byte `ICW4_8086`. -/
theorem write_data_spec_witness :
    (modeChip.next_icw = 4) ∧ (1 = ICW4_8086) ∧
    (modeChip.write_data 1 = some ({ modeChip with next_icw := 1 },
        ((List.range 8).filter (fun i => modeChip.irr.testBit i)).map
          (fun i => VMCall.raise_external_interrupt ((i + modeChip.offset) % 256))) ∧
      ({ modeChip with next_icw := 1 } : I8259A).is_initialized = true) :=
  ⟨by decide, by decide, (write_data_spec modeChip 1).2.2.2.1 (by decide) (by decide)⟩

/-- Claim C4: an initialization command (ICW1 bit set) fails fast when any
bit outside `ICW1_INIT | ICW1_ICW4` is set; otherwise it clears IMR, moves
the stage to awaiting-offset (`next_icw = 2`), issues one
cancel-all-pending-injections call exactly when IRR is nonzero, and leaves
IRR and ISR unchanged. -/
theorem write_command_init_spec (s : I8259A) (cmd : Nat)
    (hinit : cmd &&& ICW1_INIT ≠ 0) :
    (cmd &&& (255 ^^^ (ICW1_INIT ||| ICW1_ICW4)) ≠ 0 → s.write_command cmd = none) ∧
    (cmd &&& (255 ^^^ (ICW1_INIT ||| ICW1_ICW4)) = 0 →
      s.write_command cmd =
        some ({ s with imr := 0, next_icw := 2 },
              if s.irr ≠ 0 then [VMCall.cancel_all_external_interrupts] else []) ∧
      ({ s with imr := 0, next_icw := 2 } : I8259A).irr = s.irr ∧
      ({ s with imr := 0, next_icw := 2 } : I8259A).isr = s.isr) := by
  constructor
  · intro hbad
    unfold I8259A.write_command
    simp [hinit, hbad]
  · intro hok
    refine ⟨?_, by simp, by simp⟩
    unfold I8259A.write_command
    simp [hinit, hok]

/-- Witness for C4 at `eoiChip` with the command `ICW1_INIT | ICW1_ICW4`. -/
theorem write_command_init_spec_witness :
    ((0x11 : Nat) &&& ICW1_INIT ≠ 0) ∧
    ((0x11 : Nat) &&& (255 ^^^ (ICW1_INIT ||| ICW1_ICW4)) = 0 →
      eoiChip.write_command 0x11 =
        some ({ eoiChip with imr := 0, next_icw := 2 },
              if eoiChip.irr ≠ 0 then [VMCall.cancel_all_external_interrupts] else []) ∧
      ({ eoiChip with imr := 0, next_icw := 2 } : I8259A).irr = eoiChip.irr ∧
      ({ eoiChip with imr := 0, next_icw := 2 } : I8259A).isr = eoiChip.isr) :=
  ⟨by decide, (write_command_init_spec eoiChip 0x11 (by decide)).2⟩

set_option maxRecDepth 8000 in
lemma bsf_spec_lt256 : ∀ n < 256, n ≠ 0 →
    (∀ j, j < I8259A.bsf n → n.testBit j = false) ∧
    n.testBit (I8259A.bsf n) = true ∧ I8259A.bsf n < 8 := by decide

set_option maxRecDepth 8000 in
lemma eoi_testBit_lt256 : ∀ n < 256, n ≠ 0 → ∀ i < 9,
    (n &&& (255 ^^^ ((1 <<< I8259A.bsf n) % 256))).testBit i =
      (n.testBit i && (i != I8259A.bsf n)) := by decide

lemma write_command_eoi_eq (s : I8259A) :
    s.write_command PIC_EOI =
      if s.isr != 0 then
        some ({ s with isr := s.isr &&& (255 ^^^ ((1 <<< I8259A.bsf s.isr) % 256)) }, [])
      else some (s, []) := rfl

/-- Claim C5: the non-specific EOI command clears exactly the lowest-index
set bit of ISR when ISR is nonzero (`bsf` is that lowest index), is a no-op
when ISR is zero, and changes no other register. -/
theorem write_command_eoi_spec (s : I8259A) (hisr : s.isr < 256) :
    (s.isr = 0 → s.write_command PIC_EOI = some (s, [])) ∧
    (s.isr ≠ 0 →
      ∃ s2, s.write_command PIC_EOI = some (s2, []) ∧
        s2.irr = s.irr ∧ s2.imr = s.imr ∧ s2.offset = s.offset ∧
        s2.icw3 = s.icw3 ∧ s2.next_icw = s.next_icw ∧ s2.cmd_latch = s.cmd_latch ∧
        (∀ j, j < I8259A.bsf s.isr → s.isr.testBit j = false) ∧
        s.isr.testBit (I8259A.bsf s.isr) = true ∧
        (∀ i, s2.isr.testBit i = (s.isr.testBit i && (i != I8259A.bsf s.isr)))) := by
  constructor
  · intro h0
    rw [write_command_eoi_eq]
    simp [h0]
  · intro hne
    refine ⟨{ s with isr := s.isr &&& (255 ^^^ ((1 <<< I8259A.bsf s.isr) % 256)) },
        ?_, rfl, rfl, rfl, rfl, rfl, rfl,
        (bsf_spec_lt256 s.isr hisr hne).1,
        (bsf_spec_lt256 s.isr hisr hne).2.1, ?_⟩
    · rw [write_command_eoi_eq]
      simp [hne]
    · intro i
      by_cases hi : i < 9
      · exact eoi_testBit_lt256 s.isr hisr hne i hi
      · have h2 : (256 : Nat) ≤ 2 ^ i := by
          simpa using Nat.pow_le_pow_right (n := 2) (by omega) (by omega : 8 ≤ i)
        have ha : s.isr &&& (255 ^^^ ((1 <<< I8259A.bsf s.isr) % 256)) < 2 ^ i := by
          have h1 : s.isr &&& (255 ^^^ ((1 <<< I8259A.bsf s.isr) % 256)) ≤ s.isr :=
            Nat.and_le_left
          omega
        have hb : s.isr < 2 ^ i := by omega
        rw [Nat.testBit_eq_false_of_lt ha, Nat.testBit_eq_false_of_lt hb, Bool.false_and]

/-- Witness for C5 at `eoiChip` (ISR bits 1 and 3 set): one EOI clears bit 1. -/
theorem write_command_eoi_spec_witness :
    (eoiChip.isr < 256) ∧ (eoiChip.isr ≠ 0) ∧
    (∃ s2, eoiChip.write_command PIC_EOI = some (s2, []) ∧
        s2.irr = eoiChip.irr ∧ s2.imr = eoiChip.imr ∧ s2.offset = eoiChip.offset ∧
        s2.icw3 = eoiChip.icw3 ∧ s2.next_icw = eoiChip.next_icw ∧
        s2.cmd_latch = eoiChip.cmd_latch ∧
        (∀ j, j < I8259A.bsf eoiChip.isr → eoiChip.isr.testBit j = false) ∧
        eoiChip.isr.testBit (I8259A.bsf eoiChip.isr) = true ∧
        (∀ i, s2.isr.testBit i = (eoiChip.isr.testBit i && (i != I8259A.bsf eoiChip.isr)))) :=
  ⟨by decide, by decide, (write_command_eoi_spec eoiChip (by decide)).2 (by decide)⟩

/-- Claim C6: `PIC.assert_irq` on `line ≤ 15` delegates low lines to the
master unchanged; for `line ≥ 8` it delegates to the master with the
master's configured cascade-line value (`slave_irq`, i.e. the stored ICW3)
and to the slave with `line - 8`, concatenating the issued host calls. -/
theorem cascade_assert_irq_routing (p : PIC) (line : Nat) (hline : line ≤ 15) :
    (line < 8 →
      ((p.assert_irq line = none ↔ p.master.assert_irq line = none) ∧
       ∀ m evs, p.master.assert_irq line = some (m, evs) →
         p.assert_irq line = some ({ master := m, slave := p.slave }, evs))) ∧
    (8 ≤ line →
      ∀ m evs1 sl evs2,
        p.master.assert_irq p.master.slave_irq = some (m, evs1) →
        p.slave.assert_irq (line - 8) = some (sl, evs2) →
        p.assert_irq line = some ({ master := m, slave := sl }, evs1 ++ evs2)) := by
  constructor
  · intro hlo
    constructor
    · unfold PIC.assert_irq
      rw [if_pos hline, if_pos hlo]
      exact Option.map_eq_none'
    · intro m evs hm
      unfold PIC.assert_irq
      rw [if_pos hline, if_pos hlo, hm]
      rfl
  · intro hhi m evs1 sl evs2 hm hs
    unfold PIC.assert_irq
    rw [if_pos hline, if_neg (by omega), hm, hs]

/-- Witness for C6 at `readyCascade` and line 10: the master sees its
cascade line 2, the slave sees line 2 = 10 - 8. -/
theorem cascade_assert_irq_routing_witness :
    (10 ≤ 15) ∧ (8 ≤ 10) ∧
    readyCascade.assert_irq 10 =
      some ({ master := { readyCascade.master with irr := 4 },
              slave := { readyCascade.slave with irr := 4 } },
            [VMCall.raise_external_interrupt 34, VMCall.raise_external_interrupt 42]) :=
  ⟨by decide, by decide,
   (cascade_assert_irq_routing readyCascade 10 (by decide)).2 (by decide)
     { readyCascade.master with irr := 4 } [VMCall.raise_external_interrupt 34]
     { readyCascade.slave with irr := 4 } [VMCall.raise_external_interrupt 42]
     (by decide) (by decide)⟩

/-- Claim C7: `PIC.ack` delegates to the slave exactly when the vector is at
or above the slave's offset, and to the master otherwise, in each case
leaving the other chip untouched. -/
theorem cascade_ack_routing (p : PIC) (vec : Nat) :
    (p.slave.offset ≤ vec →
      ((p.ack vec = none ↔ p.slave.ack vec = none) ∧
       ∀ sl evs, p.slave.ack vec = some (sl, evs) →
         p.ack vec = some ({ master := p.master, slave := sl }, evs))) ∧
    (vec < p.slave.offset →
      ((p.ack vec = none ↔ p.master.ack vec = none) ∧
       ∀ m evs, p.master.ack vec = some (m, evs) →
         p.ack vec = some ({ master := m, slave := p.slave }, evs))) := by
  constructor
  · intro hge
    constructor
    · unfold PIC.ack
      rw [if_pos hge]
      exact Option.map_eq_none'
    · intro sl evs hs
      unfold PIC.ack
      rw [if_pos hge, hs]
      rfl
  · intro hlt
    constructor
    · unfold PIC.ack
      rw [if_neg (by omega)]
      exact Option.map_eq_none'
    · intro m evs hm
      unfold PIC.ack
      rw [if_neg (by omega), hm]
      rfl

/-- Witness for C7 at a cascade whose slave has IRR bit 1 pending
(slave offset 40), acknowledging vector 41. -/
theorem cascade_ack_routing_witness :
    ({ master := readyChip,
       slave := { irr := 2, isr := 0, imr := 0, offset := 40, icw3 := 0, next_icw := 1,
                  cmd_latch := 0 } } : PIC).slave.offset ≤ 41 ∧
    ({ master := readyChip,
       slave := { irr := 2, isr := 0, imr := 0, offset := 40, icw3 := 0, next_icw := 1,
                  cmd_latch := 0 } } : PIC).ack 41 =
      some ({ master := readyChip,
              slave := { irr := 0, isr := 2, imr := 0, offset := 40, icw3 := 0, next_icw := 1,
                         cmd_latch := 0 } }, []) :=
  ⟨by decide,
   ((cascade_ack_routing
      { master := readyChip,
        slave := { irr := 2, isr := 0, imr := 0, offset := 40, icw3 := 0, next_icw := 1,
                   cmd_latch := 0 } } 41).1 (by decide)).2
     { irr := 0, isr := 2, imr := 0, offset := 40, icw3 := 0, next_icw := 1, cmd_latch := 0 }
     [] (by decide)⟩

lemma some_pair_inj {α β : Type} {a c : α} {b d : β}
    (h : (some (a, b) : Option (α × β)) = some (c, d)) : a = c ∧ b = d := by
  rw [Option.some.injEq, Prod.mk.injEq] at h
  exact h

lemma bitsSubset_and_left (a b : Nat) : bitsSubset (a &&& b) a := by
  intro i h
  rw [Nat.testBit_and, Bool.and_eq_true] at h
  exact h.1

lemma bitsSubset_or_left (a b : Nat) : bitsSubset a (a ||| b) := by
  intro i h
  rw [Nat.testBit_or, h, Bool.true_or]

/-- Claim C8: across every chip operation, ISR bits are newly set only by
`ack`, IRR bits are newly set only by `assert_irq`, and IRR bits are cleared
only by `ack`: port writes never change IRR (in particular an IMR write
never clears a pending IRR bit) and only shrink ISR, `assert_irq` only grows
IRR and keeps ISR, and `ack` only shrinks IRR and grows ISR. -/
theorem register_transition_invariant (s : I8259A) :
    (∀ c s2 evs, s.write_command c = some (s2, evs) →
      s2.irr = s.irr ∧ bitsSubset s2.isr s.isr) ∧
    (∀ d s2 evs, s.write_data d = some (s2, evs) →
      s2.irr = s.irr ∧ s2.isr = s.isr) ∧
    (∀ line s2 evs, s.assert_irq line = some (s2, evs) →
      bitsSubset s.irr s2.irr ∧ s2.isr = s.isr) ∧
    (∀ vec s2 evs, s.ack vec = some (s2, evs) →
      bitsSubset s2.irr s.irr ∧ bitsSubset s.isr s2.isr) := by
  refine ⟨?_, ?_, ?_, ?_⟩
  · intro c s2 evs h
    unfold I8259A.write_command at h
    split at h
    · split at h
      · obtain ⟨h1, -⟩ := some_pair_inj h
        subst h1
        exact ⟨rfl, fun i hi => hi⟩
      · exact Option.noConfusion h
    · split at h
      · obtain ⟨h1, -⟩ := some_pair_inj h
        subst h1
        exact ⟨rfl, fun i hi => hi⟩
      · split at h
        · obtain ⟨h1, -⟩ := some_pair_inj h
          subst h1
          exact ⟨rfl, fun i hi => hi⟩
        · split at h
          · split at h
            · obtain ⟨h1, -⟩ := some_pair_inj h
              subst h1
              exact ⟨rfl, bitsSubset_and_left _ _⟩
            · obtain ⟨h1, -⟩ := some_pair_inj h
              subst h1
              exact ⟨rfl, fun i hi => hi⟩
          · obtain ⟨h1, -⟩ := some_pair_inj h
            subst h1
            exact ⟨rfl, fun i hi => hi⟩
  · intro d s2 evs h
    unfold I8259A.write_data at h
    split at h
    · obtain ⟨h1, -⟩ := some_pair_inj h
      subst h1
      exact ⟨rfl, rfl⟩
    · obtain ⟨h1, -⟩ := some_pair_inj h
      subst h1
      exact ⟨rfl, rfl⟩
    · split at h
      · obtain ⟨h1, -⟩ := some_pair_inj h
        subst h1
        exact ⟨rfl, rfl⟩
      · exact Option.noConfusion h
    · obtain ⟨h1, -⟩ := some_pair_inj h
      subst h1
      exact ⟨rfl, rfl⟩
  · intro line s2 evs h
    unfold I8259A.assert_irq at h
    split at h
    · split at h
      · obtain ⟨h1, -⟩ := some_pair_inj h
        subst h1
        exact ⟨fun i hi => hi, rfl⟩
      · split at h
        · obtain ⟨h1, -⟩ := some_pair_inj h
          subst h1
          exact ⟨fun i hi => hi, rfl⟩
        · obtain ⟨h1, -⟩ := some_pair_inj h
          subst h1
          exact ⟨bitsSubset_or_left _ _, rfl⟩
    · exact Option.noConfusion h
  · intro vec s2 evs h
    unfold I8259A.ack at h
    split at h
    · split at h
      · obtain ⟨h1, -⟩ := some_pair_inj h
        subst h1
        exact ⟨bitsSubset_and_left _ _, bitsSubset_or_left _ _⟩
      · exact Option.noConfusion h
    · exact Option.noConfusion h

/-- Witness for C8: one EOI on `eoiChip` keeps IRR and only clears ISR bits. -/
theorem register_transition_invariant_witness :
    eoiAfter.irr = eoiChip.irr ∧ bitsSubset eoiAfter.isr eoiChip.isr :=
  (register_transition_invariant eoiChip).1 PIC_EOI eoiAfter [] (by decide)

/-- Claim C9: on a freshly constructed cascade the slave's offset is its
default 0, so every vector satisfies `slave.offset ≤ vec` and `PIC.ack`
always delegates to the slave; the slave's `ack` then fails fast (its IRR is
empty), so `PIC.ack` on a fresh cascade is `none` for every vector and no
vector can reach the master. -/
theorem fresh_cascade_ack_goes_to_slave :
    PIC.new.slave.offset = 0 ∧
    (∀ vec : Nat, PIC.new.slave.offset ≤ vec) ∧
    (∀ vec : Nat, PIC.new.ack vec =
      (PIC.new.slave.ack vec).map (fun r => ({ PIC.new with slave := r.1 }, r.2))) ∧
    (∀ vec : Nat, PIC.new.slave.ack vec = none) ∧
    (∀ vec : Nat, PIC.new.ack vec = none) := by
  have hroute : ∀ vec : Nat, PIC.new.ack vec =
      (PIC.new.slave.ack vec).map (fun r => ({ PIC.new with slave := r.1 }, r.2)) := by
    intro vec
    simp [PIC.ack, PIC.new, I8259A.default]
  have hslave : ∀ vec : Nat, PIC.new.slave.ack vec = none := by
    intro vec
    unfold PIC.new I8259A.default I8259A.ack
    simp [Nat.zero_and]
  exact ⟨rfl, fun vec => Nat.zero_le vec, hroute, hslave,
    fun vec => by rw [hroute vec, hslave vec]; rfl⟩

/-- A chip awaiting its cascade word (stage 3) with offset 64. -/
def stage3Chip : I8259A :=
  { irr := 0, isr := 0, imr := 0, offset := 64, icw3 := 0, next_icw := 3, cmd_latch := 0 }

/-- Claim C10: the cascade word is stored verbatim (no truncation to 3
bits), the chip's `assert_irq` fails fast on any line ≥ 8, and hence
`PIC.assert_irq` on a line in 8..=15 can complete without a fail-fast abort
only when the master's programmed cascade word is below 8. -/
theorem cascade_line_untruncated (p : PIC) (s : I8259A) (d line : Nat) :
    (s.next_icw = 3 → ∀ s2 evs, s.write_data d = some (s2, evs) → s2.icw3 = d) ∧
    (8 ≤ line → s.assert_irq line = none) ∧
    (8 ≤ line → line ≤ 15 → (p.assert_irq line).isSome = true → p.master.icw3 < 8) := by
  refine ⟨?_, ?_, ?_⟩
  · intro h3 s2 evs h
    unfold I8259A.write_data at h
    rw [h3] at h
    obtain ⟨h1, -⟩ := some_pair_inj h
    subst h1
    rfl
  · intro hge
    unfold I8259A.assert_irq
    rw [if_neg (by omega)]
  · intro hge hle hsome
    by_contra hicw
    have hnone : p.master.assert_irq p.master.slave_irq = none := by
      unfold I8259A.assert_irq
      rw [if_neg (by simp only [I8259A.slave_irq]; omega)]
    unfold PIC.assert_irq at hsome
    rw [if_pos hle, if_neg (by omega), hnone] at hsome
    simp at hsome

/-- Witness for C10: a stage-3 chip stores cascade word 9 verbatim,
`readyChip.assert_irq 8` fails fast, and `readyCascade` (cascade word 2)
completes `assert_irq 10`, so its cascade word is below 8. -/
theorem cascade_line_untruncated_witness :
    ({ stage3Chip with icw3 := 9, next_icw := 4 } : I8259A).icw3 = 9 ∧
    readyChip.assert_irq 8 = none ∧
    readyCascade.master.icw3 < 8 :=
  ⟨(cascade_line_untruncated readyCascade stage3Chip 9 8).1 (by decide)
      { stage3Chip with icw3 := 9, next_icw := 4 } [] (by decide),
   (cascade_line_untruncated readyCascade readyChip 9 8).2.1 (by decide),
   (cascade_line_untruncated readyCascade stage3Chip 9 10).2.2 (by decide) (by decide)
     (by decide)⟩
